import Mathlib

/-!
Verification development for the room-broadcast / connection-session subsystem
of the h2hbot repository (src/workers/socket.ts: the WebSocketConnection
durable object) and its token verifier (src/lib/jwt.ts).

JavaScript `Map` and `Set` objects are embedded as insertion-ordered
association lists and duplicate-free lists; the operations below mirror the
JS semantics (add appends when absent, delete removes, Map.set on an existing
key updates in place).
-/

set_option maxRecDepth 4000

abbrev SessionId := String
abbrev RoomId := String

/-- JS `Set.add`: no-op when present, otherwise append (insertion order). -/
def setAdd (s : List String) (a : String) : List String :=
  if a ∈ s then s else s ++ [a]

/-- JS `Set.delete` / removal of an element. -/
def setDelete (s : List String) (a : String) : List String :=
  s.filter (fun x => x ≠ a)

/-- JS `Map.get`: first (unique, in JS) entry with the given key. -/
def mapGet (m : List (String × List String)) (k : String) : Option (List String) :=
  (m.find? (fun p => p.1 = k)).map (fun p => p.2)

/-- JS `Map.has`. -/
def mapHas (m : List (String × List String)) (k : String) : Bool :=
  (mapGet m k).isSome

/-- In-place mutation of the set stored under a key (JS `map.get(k)` followed by
mutating the returned `Set` object). Entries with other keys are untouched. -/
def mapUpdate (m : List (String × List String)) (k : String)
    (f : List String → List String) : List (String × List String) :=
  m.map (fun p => if p.1 = k then (p.1, f p.2) else p)

/-- JS `Map.delete`. -/
def mapDelete (m : List (String × List String)) (k : String) : List (String × List String) :=
  m.filter (fun p => p.1 ≠ k)

/-- One active WebSocket session (src/workers/socket.ts, `ActiveSession`).
`readyState` is the state the socket object reports; `WebSocket.OPEN = 1`. -/
structure Session where
  id : SessionId
  userId : String
  userName : Option String
  readyState : Nat
  rooms : List RoomId
deriving DecidableEq, Repr

/-- `WebSocket.OPEN` per the WebSocket standard. -/
def wsOPEN : Nat := 1

/-- The in-memory state of the `WebSocketConnection` durable object:
`activeConnections : Map sessionId → ActiveSession` and
`roomParticipants : Map roomId → Set sessionId`. -/
structure CoordState where
  activeConnections : List Session
  roomParticipants : List (RoomId × List SessionId)
deriving DecidableEq, Repr

/-- `this.activeConnections.get(sessionId)`. -/
def lookupSession (st : CoordState) (sid : SessionId) : Option Session :=
  st.activeConnections.find? (fun s => s.id = sid)

/-- Mutation of the session object stored in the registry under `sid`
(in JS the registry holds the very object that gets mutated). -/
def updateSession (l : List Session) (sid : SessionId) (f : Session → Session) :
    List Session :=
  l.map (fun s => if s.id = sid then f s else s)

/-- Whether `sid` names a registered session whose socket reports OPEN. -/
def isOpenIn (st : CoordState) (sid : SessionId) : Bool :=
  match lookupSession st sid with
  | some s => s.readyState = wsOPEN
  | none => false

/-- The membership set of a room (empty when the entry is absent). -/
def roomSet (st : CoordState) (r : RoomId) : List SessionId :=
  (mapGet st.roomParticipants r).getD []

/-- `session.rooms.add(roomKey)`. -/
def joinUpd (roomId : RoomId) (s : Session) : Session :=
  { s with rooms := setAdd s.rooms roomId }

/-- `session.rooms.delete(roomKey)`. -/
def leaveUpd (roomId : RoomId) (s : Session) : Session :=
  { s with rooms := setDelete s.rooms roomId }

/-- `handleRoomJoin` (socket.ts lines 280–297): add the room key (`roomId` is
already the `String(roomId)` coercion) to the session's `rooms` set, create
the room entry if absent, add the session id. -/
def handleRoomJoin (st : CoordState) (session : Session) (roomId : RoomId) :
    CoordState :=
  { activeConnections :=
      updateSession st.activeConnections session.id (joinUpd roomId),
    roomParticipants :=
      mapUpdate
        (if mapHas st.roomParticipants roomId then st.roomParticipants
         else st.roomParticipants ++ [(roomId, [])])
        roomId (fun ss => setAdd ss session.id) }

/-- `handleRoomLeave` (socket.ts lines 299–308): delete the room key from the
session's `rooms` set and the session id from the room entry if it exists.
Note: the entry is NOT deleted when it becomes empty. -/
def handleRoomLeave (st : CoordState) (session : Session) (roomId : RoomId) :
    CoordState :=
  { activeConnections :=
      updateSession st.activeConnections session.id (leaveUpd roomId),
    roomParticipants := mapUpdate st.roomParticipants roomId
      (fun ss => setDelete ss session.id) }

/-- One iteration of the room-cleanup loop in `handleSessionClose`
(socket.ts lines 315–324): remove `sid` from the room's set; if the set
became empty, delete the entry entirely. -/
def closeRoomStep (sid : SessionId) (m : List (RoomId × List SessionId))
    (roomId : RoomId) : List (RoomId × List SessionId) :=
  match mapGet m roomId with
  | none => m
  | some ss =>
    let ss2 := setDelete ss sid
    if ss2.isEmpty then mapDelete m roomId
    else mapUpdate m roomId (fun _ => ss2)

/-- `handleSessionClose` (socket.ts lines 310–335): if the session is
registered, remove it from every room in its `rooms` set (deleting room
entries that become empty) and drop it from the registry; otherwise no-op. -/
def handleSessionClose (st : CoordState) (sid : SessionId) : CoordState :=
  match lookupSession st sid with
  | none => st
  | some session =>
    { activeConnections := st.activeConnections.filter (fun s => s.id ≠ sid),
      roomParticipants := session.rooms.foldl (closeRoomStep sid) st.roomParticipants }

/-- Inbound control frames dispatched by `handleMessage`
(socket.ts lines 266–278). -/
inductive WsMessage where
  | roomJoin (roomId : RoomId)
  | roomLeave (roomId : RoomId)
deriving DecidableEq, Repr

/-- `handleMessage` (socket.ts lines 266–278): look the session up; if absent,
do nothing; otherwise dispatch join/leave. -/
def handleMessage (st : CoordState) (sid : SessionId) (msg : WsMessage) : CoordState :=
  match lookupSession st sid with
  | none => st
  | some session =>
    match msg with
    | .roomJoin roomId => handleRoomJoin st session roomId
    | .roomLeave roomId => handleRoomLeave st session roomId

/-! ## Wire envelope model and the zod `BroadcastMessageSchema` -/

/-- JSON values as produced by `request.json()` (numbers restricted to the
integers actually carried by these payloads). -/
inductive Json where
  | null
  | bool (b : Bool)
  | num (n : Int)
  | str (s : String)
  | arr (xs : List Json)
  | obj (kvs : List (String × Json))

/-- Property access on a JSON object. -/
def jGet (kvs : List (String × Json)) (k : String) : Option Json :=
  (kvs.find? (fun p => p.1 = k)).map (fun p => p.2)

/-- `z.string().or(z.number())` values, before `String(roomId)` coercion. -/
inductive StrOrNum where
  | str (s : String)
  | num (n : Int)
deriving DecidableEq, Repr

/-- JS `String(x)` on a string-or-number. -/
def strCoerce : StrOrNum → String
  | .str s => s
  | .num n => toString n

/-- JS falsiness of a string-or-number (`""` and `0` are falsy). -/
def jsFalsy : StrOrNum → Bool
  | .str s => s = ""
  | .num n => n = 0

def asStr : Json → Option String
  | .str s => some s
  | _ => none

def asNum : Json → Option Int
  | .num n => some n
  | _ => none

def asBool : Json → Option Bool
  | .bool b => some b
  | _ => none

def asStrOrNum : Json → Option StrOrNum
  | .str s => some (.str s)
  | .num n => some (.num n)
  | _ => none

/-- `z.union([z.boolean(), z.number()])`. -/
def asBoolOrNum : Json → Option (Sum Bool Int)
  | .bool b => some (.inl b)
  | .num n => some (.inr n)
  | _ => none

/-- `z.number().nullable()`. -/
def asNullableNum : Json → Option (Option Int)
  | .null => some none
  | .num n => some (some n)
  | _ => none

/-- `z.string().nullable()`. -/
def asNullableStr : Json → Option (Option String)
  | .null => some none
  | .str s => some (some s)
  | _ => none

/-- `z.string().or(z.array(z.string()))`. -/
def asStrOrStrArr : Json → Option (Sum String (List String))
  | .str s => some (.inl s)
  | .arr xs => (xs.mapM asStr).map .inr
  | _ => none

/-- `z.array(z.number())`. -/
def asNumArr : Json → Option (List Int)
  | .arr xs => xs.mapM asNum
  | _ => none

/-- A required object field parsed by `p` (zod fails on a missing key). -/
def reqField (kvs : List (String × Json)) (k : String) (p : Json → Option α) :
    Option α :=
  (jGet kvs k).bind p

/-- An `.optional()` object field: absent is fine, present must parse. -/
def optField (kvs : List (String × Json)) (k : String) (p : Json → Option α) :
    Option (Option α) :=
  match jGet kvs k with
  | none => some none
  | some v => (p v).map some

/-- The inner chat-message record of the chat payload schema
(socket.ts lines 100–113). -/
structure ChatMessage where
  id : Int
  conversation_id : Int
  user_id : Option Int
  content : String
  is_ai : Sum Bool Int
  sender_name : Option String
  created_at : String
  eligibility_status : String
  eligibility_reasons : Sum String (List String)
  heart_points_received : Int
  heart_points_awarded_at : Option String
  heart_points_awarded_by : Option Int

def eligibilityStatuses : List String :=
  ["pending", "eligible", "not_eligible", "points_awarded", "expired"]

def parseChatMessage (j : Json) : Option ChatMessage :=
  match j with
  | .obj kvs => do
    let id ← reqField kvs "id" asNum
    let conversation_id ← reqField kvs "conversation_id" asNum
    let user_id ← reqField kvs "user_id" asNullableNum
    let content ← reqField kvs "content" asStr
    let is_ai ← reqField kvs "is_ai" asBoolOrNum
    let sender_name ← reqField kvs "sender_name" asNullableStr
    let created_at ← reqField kvs "created_at" asStr
    let status ← reqField kvs "eligibility_status" asStr
    if status ∈ eligibilityStatuses then
      let reasons ← reqField kvs "eligibility_reasons" asStrOrStrArr
      let hpr ← reqField kvs "heart_points_received" asNum
      let hpat ← reqField kvs "heart_points_awarded_at" asNullableStr
      let hpby ← reqField kvs "heart_points_awarded_by" asNullableNum
      some ⟨id, conversation_id, user_id, content, is_ai, sender_name,
            created_at, status, reasons, hpr, hpat, hpby⟩
    else none
  | _ => none

/-- The notification-created payload schema (socket.ts lines 116–126);
`createdAt` is `z.union([z.string(), z.date()])`, but a JSON request body can
only ever supply the string branch. -/
structure NotificationRecord where
  id : Int
  userId : Int
  type : String
  title : String
  content : String
  link : Option String
  isRead : Bool
  createdAt : String
  metadata : List (String × Json)

def parseNotificationRecord (j : Json) : Option NotificationRecord :=
  match j with
  | .obj kvs => do
    let id ← reqField kvs "id" asNum
    let userId ← reqField kvs "userId" asNum
    let ty ← reqField kvs "type" asStr
    if ty = "chat_message" ∨ ty = "announcement" then
      let title ← reqField kvs "title" asStr
      let content ← reqField kvs "content" asStr
      let link ← (optField kvs "link" asNullableStr).map (fun o => o.getD none)
      let isRead ← reqField kvs "isRead" asBool
      let createdAt ← reqField kvs "createdAt" asStr
      let metadata ← reqField kvs "metadata"
        (fun v => match v with | .obj fs => some fs | _ => none)
      some ⟨id, userId, ty, title, content, link, isRead, createdAt, metadata⟩
    else none
  | _ => none

/-- One variant per member of the `z.union` payload schema, in schema order.
zod strips unknown keys, so the validated payload carries exactly these
fields — in particular only the chat variant has a `roomId` property. -/
inductive Payload where
  | chat (roomId : StrOrNum) (message : ChatMessage)
  | notifCreated (n : NotificationRecord)
  | notifDeleted (notificationId : Int) (chatId : Option Int)
  | notifCleared (chatIds : List Int)

def parseChatPayload (j : Json) : Option Payload :=
  match j with
  | .obj kvs => do
    let roomId ← reqField kvs "roomId" asStrOrNum
    let msg ← reqField kvs "message" parseChatMessage
    some (.chat roomId msg)
  | _ => none

def parseNotifDeletedPayload (j : Json) : Option Payload :=
  match j with
  | .obj kvs => do
    let nid ← reqField kvs "notificationId" asNum
    let chatId ← optField kvs "chatId" asNum
    some (.notifDeleted nid chatId)
  | _ => none

def parseNotifClearedPayload (j : Json) : Option Payload :=
  match j with
  | .obj kvs => do
    let chatIds ← reqField kvs "chatIds" asNumArr
    some (.notifCleared chatIds)
  | _ => none

/-- `z.union` tries its members in order and keeps the first success. -/
def parsePayload (j : Json) : Option Payload :=
  (parseChatPayload j).orElse (fun _ =>
    ((parseNotificationRecord j).map .notifCreated).orElse (fun _ =>
      (parseNotifDeletedPayload j).orElse (fun _ =>
        parseNotifClearedPayload j)))

/-- `BroadcastMessageSchema` (socket.ts lines 94–138): `type` is validated as
`z.string()` only — the tag is NOT checked against a closed set of known
event names. -/
structure Envelope where
  type : String
  payload : Payload

/-- `BroadcastMessageSchema.parse(rawMessage)`; `none` is a thrown
`ZodError`, which `handleBroadcast` catches. -/
def parseBroadcastMessage (raw : Json) : Option Envelope :=
  match raw with
  | .obj kvs => do
    let ty ← reqField kvs "type" asStr
    let payload ← reqField kvs "payload" parsePayload
    some ⟨ty, payload⟩
  | _ => none

/-- `'roomId' in validatedMessage.payload` plus the destructured value:
only the chat variant of the validated union carries a `roomId` key. -/
def payloadRoomId : Payload → Option StrOrNum
  | .chat roomId _ => some roomId
  | _ => none

/-! ## The broadcast endpoint -/

/-- The response classes `handleBroadcast` can produce (socket.ts 337–437):
200 success with a recipient count, 400 "Room ID required", 404 "Room not
found", 500 "Internal server error" (the catch-all, reached e.g. when the
zod parse throws). -/
inductive BroadcastResult where
  | success (recipients : Nat)
  | roomIdRequired
  | roomNotFound
  | internalError
deriving DecidableEq, Repr

/-- Coordinator state after a broadcast, the HTTP-level result, and the ids of
the sessions the serialized envelope was actually sent to, in send order. -/
structure BroadcastOutcome where
  state : CoordState
  result : BroadcastResult
  sent : List SessionId
deriving DecidableEq, Repr

/-- The global fan-out loop (socket.ts 356–363) over a snapshot of the
registry: send to OPEN sessions, `handleSessionClose` the rest.  (JS map
iteration with only current-entry deletion is equivalent to iterating the
initial entry list.) -/
def globalLoop : List Session → CoordState → Nat → List SessionId →
    CoordState × Nat × List SessionId
  | [], st, n, sent => (st, n, sent)
  | s :: rest, st, n, sent =>
    if s.readyState = wsOPEN then globalLoop rest st (n + 1) (sent ++ [s.id])
    else globalLoop rest (handleSessionClose st s.id) n sent

/-- The room fan-out loop (socket.ts 407–419) over a snapshot of the room's
membership set: ids with no registered session are deleted from the room's
set in place; OPEN sessions are sent to; the rest are closed inline. -/
def roomLoop (roomKey : RoomId) :
    List SessionId → CoordState → Nat → List SessionId →
    CoordState × Nat × List SessionId
  | [], st, n, sent => (st, n, sent)
  | sid :: rest, st, n, sent =>
    match lookupSession st sid with
    | none =>
      roomLoop roomKey rest
        { st with roomParticipants :=
            mapUpdate st.roomParticipants roomKey (fun ss => setDelete ss sid) }
        n sent
    | some s =>
      if s.readyState = wsOPEN then roomLoop roomKey rest st (n + 1) (sent ++ [s.id])
      else roomLoop roomKey rest (handleSessionClose st sid) n sent

/-- `handleBroadcast` (socket.ts 337–437) on a POSTed JSON body.  Only the
literal tags `notification:deleted` and `notification:cleared` select the
global branch; everything else goes to the room-scoped branch, which reads
`roomId` out of the validated payload (present only on the chat shape),
treats a falsy `roomId` (`null`, `""`, `0`) as missing, and 404s when the
membership map has no entry for the coerced room key. -/
def handleBroadcast (st : CoordState) (raw : Json) : BroadcastOutcome :=
  match parseBroadcastMessage raw with
  | none => ⟨st, .internalError, []⟩
  | some env =>
    if env.type = "notification:deleted" ∨ env.type = "notification:cleared" then
      let out := globalLoop st.activeConnections st 0 []
      ⟨out.1, .success out.2.1, out.2.2⟩
    else
      match payloadRoomId env.payload with
      | none => ⟨st, .roomIdRequired, []⟩
      | some rid =>
        if jsFalsy rid then ⟨st, .roomIdRequired, []⟩
        else
          let roomKey := strCoerce rid
          match mapGet st.roomParticipants roomKey with
          | none => ⟨st, .roomNotFound, []⟩
          | some roomSessions =>
            let out := roomLoop roomKey roomSessions st 0 []
            ⟨out.1, .success out.2.1, out.2.2⟩

/-! ## The stale-connection reaper -/

/-- The body of `cleanupStaleConnections` (socket.ts 171–177) over a snapshot
of the registry.  Each non-open session is closed with an awaited
`handleSessionClose`, whose storage write can reject; `failsOn` says which
sessions' cleanup throws.  The loop body has no try/catch, so a throw
propagates out of the sweep immediately, carrying the state as of the
failure. -/
def sweep (failsOn : SessionId → Bool) :
    List Session → CoordState → Except CoordState CoordState
  | [], st => .ok st
  | s :: rest, st =>
    if s.readyState = wsOPEN then sweep failsOn rest st
    else
      if failsOn s.id then .error (handleSessionClose st s.id)
      else sweep failsOn rest (handleSessionClose st s.id)

/-- `cleanupStaleConnections` (socket.ts 171–177). -/
def cleanupStaleConnections (failsOn : SessionId → Bool) (st : CoordState) :
    Except CoordState CoordState :=
  sweep failsOn st.activeConnections st

/-! ## Token verification (src/lib/jwt.ts and socket.ts `verifyToken`) -/

namespace Jwt

/-- The payload schema of src/lib/jwt.ts (`payloadSchema`). -/
structure JwtPayload where
  sub : String
  name : Option String := none
  email : Option String := none
  iat : Option Int := none
  exp : Option Int := none
  jti : Option String := none
deriving DecidableEq, Repr

/-- A token presented for verification.  The purely cryptographic stages of
`decode` — the three-segment base64url format with a JSON header/payload
matching `payloadSchema`, the `HS256` algorithm check, and the HMAC
signature verification — are black-box collaborators here, summarized by
the three booleans; what is modelled concretely is the expiry logic. -/
structure TokenModel where
  wellFormed : Bool
  algOk : Bool
  sigOk : Bool
  payload : JwtPayload
deriving DecidableEq, Repr

inductive JwtError where
  | invalidFormat
  | invalidAlg
  | invalidSignature
  | expired
  | missingSub
  | noSecret
deriving DecidableEq, Repr

/-- JS truthiness of `payload.exp` in `payload.exp && payload.exp < now`:
an absent claim and the number `0` are both falsy. -/
def expTruthy : Option Int → Bool
  | none => false
  | some e => e ≠ 0

/-- `decode` (jwt.ts 125–192): format, algorithm and signature checks, then
the expiry check `if (validatedPayload.exp && validatedPayload.exp <
Math.floor(Date.now() / 1000)) throw`. `now` is the current Unix time in
seconds. -/
def decode (t : TokenModel) (now : Int) : Except JwtError JwtPayload :=
  if ¬ t.wellFormed then .error .invalidFormat
  else if ¬ t.algOk then .error .invalidAlg
  else if ¬ t.sigOk then .error .invalidSignature
  else if expTruthy t.payload.exp ∧ t.payload.exp.getD 0 < now then .error .expired
  else .ok t.payload

/-- `verifyToken` (src/workers/socket.ts 54–84): requires a configured
secret, decodes, rejects a falsy `sub` (the empty string), and repeats the
same truthiness-guarded expiry check. -/
def verifyToken (secretConfigured : Bool) (t : TokenModel) (now : Int) :
    Except JwtError JwtPayload :=
  if ¬ secretConfigured then .error .noSecret
  else
    match decode t now with
    | .error e => .error e
    | .ok p =>
      if p.sub = "" then .error .missingSub
      else if expTruthy p.exp ∧ p.exp.getD 0 < now then .error .expired
      else .ok p

end Jwt

/-! ## The bidirectional-consistency invariant -/

/-- A sessionId appears in a room's membership set iff that (registered)
session's `rooms` set contains that roomId.  Stated over the entries that
exist, which makes it decidable on concrete states; rooms without an entry
have an empty `roomSet`, so the first conjunct also forces an entry to exist
for every room a registered session believes it is in. -/
def Consistent (st : CoordState) : Prop :=
  (∀ s ∈ st.activeConnections, ∀ r ∈ s.rooms, s.id ∈ roomSet st r) ∧
  (∀ p ∈ st.roomParticipants, ∀ s ∈ st.activeConnections,
    s.id ∈ roomSet st p.1 → p.1 ∈ s.rooms)

instance (st : CoordState) : Decidable (Consistent st) := by
  unfold Consistent; infer_instance

/-- The effect of `handleSessionClose` on one room entry, as a transform of
the optional membership set: remove the id, drop the entry if it emptied. -/
def closeTransform (sid : SessionId) (o : Option (List SessionId)) :
    Option (List SessionId) :=
  o.bind (fun ss =>
    let ss2 := setDelete ss sid
    if ss2.isEmpty then none else some ss2)

/-! ## Concrete instances used by witnesses and counterexamples -/

/-- A fully populated chat-message JSON object accepted by the chat payload
schema. -/
def chatMsgJson : Json :=
  .obj [("id", .num 1), ("conversation_id", .num 7), ("user_id", .num 2),
        ("content", .str "hi"), ("is_ai", .bool false),
        ("sender_name", .str "al"),
        ("created_at", .str "2026-01-01T00:00:00.000Z"),
        ("eligibility_status", .str "pending"),
        ("eligibility_reasons", .arr []),
        ("heart_points_received", .num 0),
        ("heart_points_awarded_at", .null),
        ("heart_points_awarded_by", .null)]

/-- The parse of `chatMsgJson`. -/
def chatMsgVal : ChatMessage :=
  ⟨1, 7, some 2, "hi", .inl false, some "al", "2026-01-01T00:00:00.000Z",
   "pending", .inr [], 0, none, none⟩

/-- Room `R` with `S1` open, `S2` closed (readyState 3 = CLOSED), `S3` open. -/
def stC1 : CoordState :=
  ⟨[⟨"S1", "u1", none, 1, ["R"]⟩, ⟨"S2", "u2", none, 3, ["R"]⟩,
    ⟨"S3", "u3", none, 1, ["R"]⟩],
   [("R", ["S1", "S2", "S3"])]⟩

/-- `{type: 'chat:message', payload: {roomId: 'R', message: {...}}}`. -/
def rawC1 : Json :=
  .obj [("type", .str "chat:message"),
        ("payload", .obj [("roomId", .str "R"), ("message", chatMsgJson)])]

def envC1 : Envelope := ⟨"chat:message", .chat (.str "R") chatMsgVal⟩

/-- One open session `A` joined to room `5`. -/
def stC2 : CoordState := ⟨[⟨"A", "u1", none, 1, ["5"]⟩], [("5", ["A"])]⟩

/-- An envelope with an unrecognized type tag but a payload that matches the
chat shape, targeting room `5`. -/
def rawC2 : Json :=
  .obj [("type", .str "bogus:tag"),
        ("payload", .obj [("roomId", .str "5"), ("message", chatMsgJson)])]

/-- The spec's own example: an unknown tag with an empty payload object. -/
def rawC2empty : Json :=
  .obj [("type", .str "not:a:real:tag"), ("payload", .obj [])]

/-- One open registered session, member of no room. -/
def stC3 : CoordState := ⟨[⟨"A", "u1", none, 1, []⟩], []⟩

/-- A valid `notification:created` envelope (matches the notification-created
member of the payload union). -/
def rawC3 : Json :=
  .obj [("type", .str "notification:created"),
        ("payload", .obj [("id", .num 1), ("userId", .num 2),
                          ("type", .str "announcement"), ("title", .str "t"),
                          ("content", .str "c"), ("isRead", .bool false),
                          ("createdAt", .str "2026-02-03T04:05:06.000Z"),
                          ("metadata", .obj [])])]

/-- Session `A` is the sole member of room `1`. -/
def stC4 : CoordState := ⟨[⟨"A", "u1", none, 1, ["1"]⟩], [("1", ["A"])]⟩

/-- `S` (closed) in rooms `1` and `2` (sole member of `2`); `T` (open) in
room `1`. -/
def stC5 : CoordState :=
  ⟨[⟨"S", "u1", none, 3, ["1", "2"]⟩, ⟨"T", "u2", none, 1, ["1"]⟩],
   [("1", ["S", "T"]), ("2", ["S"])]⟩

/-- A small consistent state: `S` in room `9`, `T` in no room. -/
def stC6 : CoordState :=
  ⟨[⟨"S", "u1", none, 1, ["9"]⟩, ⟨"T", "u2", none, 3, []⟩], [("9", ["S"])]⟩

/-- A state whose room `E` has an entry with an empty membership set. -/
def stC7 : CoordState := ⟨[], [("E", [])]⟩

/-- `{type: 'chat:message', payload: {roomId: 'E', ...}}`. -/
def rawC7 : Json :=
  .obj [("type", .str "chat:message"),
        ("payload", .obj [("roomId", .str "E"), ("message", chatMsgJson)])]

def envC7 : Envelope := ⟨"chat:message", .chat (.str "E") chatMsgVal⟩

/-- Two dead sessions; cleaning up `s1` throws. -/
def stC8 : CoordState :=
  ⟨[⟨"s1", "u1", none, 3, []⟩, ⟨"s2", "u2", none, 3, []⟩], []⟩

def failsC8 : SessionId → Bool := fun sid => decide (sid = "s1")

/-- The state at the moment the exception escapes the sweep: `s1` is gone,
dead `s2` is still registered. -/
def stC8after : CoordState := ⟨[⟨"s2", "u2", none, 3, []⟩], []⟩

/-- One dead session, no cleanup failures. -/
def stC8w : CoordState := ⟨[⟨"s1", "u1", none, 3, []⟩], []⟩

def noFails : SessionId → Bool := fun _ => false

/-- A well-formed, correctly signed token whose payload has no `exp` claim. -/
def tokC10 : Jwt.TokenModel := ⟨true, true, true, { sub := "user-1" }⟩

/-! ## Basic lemmas about the JS collection embeddings -/

theorem mem_setAdd {s : List String} {a b : String} :
    b ∈ setAdd s a ↔ b ∈ s ∨ b = a := by
  unfold setAdd
  by_cases h : a ∈ s
  · simp only [if_pos h]
    constructor
    · exact fun hb => Or.inl hb
    · rintro (hb | rfl)
      · exact hb
      · exact h
  · simp [if_neg h]

theorem self_mem_setAdd (s : List String) (a : String) : a ∈ setAdd s a :=
  mem_setAdd.mpr (Or.inr rfl)

theorem setAdd_of_mem {s : List String} {a : String} (h : a ∈ s) :
    setAdd s a = s := by
  simp [setAdd, h]

theorem setAdd_setAdd (s : List String) (a : String) :
    setAdd (setAdd s a) a = setAdd s a :=
  setAdd_of_mem (self_mem_setAdd s a)

theorem mem_setDelete {s : List String} {a b : String} :
    b ∈ setDelete s a ↔ b ∈ s ∧ b ≠ a := by
  simp [setDelete, List.mem_filter]

theorem setDelete_setDelete (s : List String) (a : String) :
    setDelete (setDelete s a) a = setDelete s a := by
  apply List.filter_eq_self.mpr
  intro b hb
  simpa using (mem_setDelete.mp hb).2

theorem not_mem_setDelete (s : List String) (a : String) : a ∉ setDelete s a :=
  fun h => (mem_setDelete.mp h).2 rfl

theorem mapGet_cons (p : String × List String) (m : List (String × List String))
    (k : String) :
    mapGet (p :: m) k = if p.1 = k then some p.2 else mapGet m k := by
  by_cases h : p.1 = k <;> simp [mapGet, List.find?_cons, h]

theorem mapGet_mapUpdate (m : List (String × List String)) (k : String)
    (f : List String → List String) (k' : String) :
    mapGet (mapUpdate m k f) k' =
      if k' = k then (mapGet m k').map f else mapGet m k' := by
  induction m with
  | nil => simp [mapGet, mapUpdate]
  | cons p rest ih =>
    by_cases h1 : p.1 = k
    · simp only [mapUpdate, List.map_cons, if_pos h1] at *
      rw [mapGet_cons, mapGet_cons]
      by_cases h2 : k' = k
      · simp [h1, h2]
      · have : ¬ p.1 = k' := by rw [h1]; exact fun hk => h2 hk.symm
        simp [this, ih, h2]
    · simp only [mapUpdate, List.map_cons, if_neg h1] at *
      rw [mapGet_cons, mapGet_cons]
      by_cases h3 : p.1 = k'
      · have h2 : ¬ k' = k := by rw [← h3]; exact fun hk => h1 hk
        simp [h3, h2]
      · simp [h3, ih]

theorem mapGet_mapDelete (m : List (String × List String)) (k k' : String) :
    mapGet (mapDelete m k) k' = if k' = k then none else mapGet m k' := by
  induction m with
  | nil => simp [mapGet, mapDelete]
  | cons p rest ih =>
    simp only [mapDelete, List.filter_cons] at ih ⊢
    by_cases h1 : p.1 = k
    · rw [if_neg (by simp [h1]), ih]
      by_cases h2 : k' = k
      · simp [h2]
      · have hp : ¬ p.1 = k' := by rw [h1]; exact fun hk => h2 hk.symm
        simp [h2, mapGet_cons, hp]
    · rw [if_pos (by simp [h1]), mapGet_cons, ih, mapGet_cons]
      by_cases h3 : p.1 = k'
      · have h2 : ¬ k' = k := by rw [← h3]; exact fun hk => h1 hk
        simp [h3, h2]
      · simp [h3]

theorem mapGet_append_singleton (m : List (String × List String)) (k : String)
    (v : List String) (k' : String) :
    mapGet (m ++ [(k, v)]) k' =
      match mapGet m k' with
      | some w => some w
      | none => if k' = k then some v else none := by
  induction m with
  | nil =>
    simp only [List.nil_append, mapGet_cons]
    by_cases h : k = k'
    · simp [h, mapGet]
    · have : ¬ k' = k := fun hk => h hk.symm
      simp [h, this, mapGet]
  | cons p rest ih =>
    simp only [List.cons_append, mapGet_cons, ih]
    by_cases h3 : p.1 = k'
    · simp [h3]
    · simp [h3]

theorem mapGet_eq_some_mem {m : List (String × List String)} {k : String}
    {v : List String} (h : mapGet m k = some v) :
    ∃ q ∈ m, q.1 = k ∧ q.2 = v := by
  unfold mapGet at h
  cases hf : m.find? (fun p => p.1 = k) with
  | none => rw [hf] at h; simp at h
  | some q =>
    rw [hf] at h
    refine ⟨q, List.mem_of_find?_eq_some hf, ?_, ?_⟩
    · have := List.find?_some hf
      simpa using this
    · simpa using h

theorem mapUpdate_mapUpdate (m : List (String × List String)) (k : String)
    (f g : List String → List String) :
    mapUpdate (mapUpdate m k f) k g = mapUpdate m k (fun v => g (f v)) := by
  unfold mapUpdate
  rw [List.map_map]
  congr 1
  funext p
  by_cases h : p.1 = k <;> simp [h]

/-! ## Registry lookup lemmas -/

theorem find?_updateSession (l : List Session) (sid' : SessionId)
    (f : Session → Session) (hf : ∀ s, (f s).id = s.id) (sid : SessionId) :
    (updateSession l sid' f).find? (fun s => s.id = sid) =
      ((l.find? (fun s => s.id = sid)).map
        (fun s => if s.id = sid' then f s else s)) := by
  unfold updateSession
  rw [List.find?_map]
  have hp : ((fun s => decide (s.id = sid)) ∘ fun s => if s.id = sid' then f s else s)
      = (fun s : Session => decide (s.id = sid)) := by
    funext s
    by_cases h : s.id = sid' <;> simp [Function.comp, h, hf]
  rw [hp]

theorem find?_filter_ne (l : List Session) (sid sid' : SessionId)
    (h : sid ≠ sid') :
    (l.filter (fun s => s.id ≠ sid')).find? (fun s => s.id = sid) =
      l.find? (fun s => s.id = sid) := by
  rw [List.find?_filter]
  congr 1
  funext s
  by_cases hs : s.id = sid
  · have : s.id ≠ sid' := by rw [hs]; exact h
    simp [hs, this, h]
  · simp [hs]

theorem find?_filter_self (l : List Session) (sid : SessionId) :
    (l.filter (fun s => s.id ≠ sid)).find? (fun s => s.id = sid) = none := by
  rw [List.find?_filter, List.find?_eq_none]
  intro s _
  simp only [decide_eq_true_eq, Bool.and_eq_true]
  rintro ⟨h1, h2⟩
  exact h1 h2

theorem lookupSession_mem {st : CoordState} {sid : SessionId} {s : Session}
    (h : lookupSession st sid = some s) :
    s ∈ st.activeConnections ∧ s.id = sid := by
  refine ⟨List.mem_of_find?_eq_some h, ?_⟩
  have := List.find?_some h
  simpa using this

theorem lookupSession_none_iff {st : CoordState} {sid : SessionId} :
    lookupSession st sid = none ↔ ∀ s ∈ st.activeConnections, s.id ≠ sid := by
  unfold lookupSession
  rw [List.find?_eq_none]
  constructor
  · intro h s hs
    have := h s hs
    simpa using this
  · intro h s hs
    simpa using h s hs

/-! ## Characterization of `handleSessionClose` -/

theorem handleSessionClose_of_lookup {st : CoordState} {sid : SessionId}
    {s : Session} (h : lookupSession st sid = some s) :
    handleSessionClose st sid =
      ⟨st.activeConnections.filter (fun t => t.id ≠ sid),
       s.rooms.foldl (closeRoomStep sid) st.roomParticipants⟩ := by
  unfold handleSessionClose
  rw [h]

theorem handleSessionClose_of_lookup_none {st : CoordState} {sid : SessionId}
    (h : lookupSession st sid = none) :
    handleSessionClose st sid = st := by
  unfold handleSessionClose
  rw [h]

theorem lookupSession_close_self (st : CoordState) (sid : SessionId) :
    lookupSession (handleSessionClose st sid) sid = none := by
  unfold handleSessionClose
  cases h : lookupSession st sid with
  | none => exact h
  | some s => exact find?_filter_self st.activeConnections sid

theorem lookupSession_close_other (st : CoordState) {sid sid' : SessionId}
    (h : sid' ≠ sid) :
    lookupSession (handleSessionClose st sid) sid' = lookupSession st sid' := by
  unfold handleSessionClose
  cases hl : lookupSession st sid with
  | none => rfl
  | some s => exact find?_filter_ne st.activeConnections sid' sid h

theorem lookupSession_close_none {st : CoordState} {sid x : SessionId}
    (h : lookupSession st sid = none) :
    lookupSession (handleSessionClose st x) sid = none := by
  by_cases hx : sid = x
  · rw [hx]; exact lookupSession_close_self st x
  · rw [lookupSession_close_other st hx]; exact h

theorem mapGet_closeRoomStep (sid : SessionId)
    (m : List (RoomId × List SessionId)) (roomId r : RoomId) :
    mapGet (closeRoomStep sid m roomId) r =
      if r = roomId then closeTransform sid (mapGet m roomId)
      else mapGet m r := by
  unfold closeRoomStep closeTransform
  cases h : mapGet m roomId with
  | none =>
    by_cases hr : r = roomId
    · simp [hr, h]
    · rw [if_neg hr]
  | some ss =>
    by_cases hd : setDelete ss sid = []
    · by_cases hr : r = roomId <;> simp [hr, h, hd, mapGet_mapDelete]
    · by_cases hr : r = roomId <;> simp [hr, h, hd, mapGet_mapUpdate]

theorem closeTransform_closeTransform (sid : SessionId)
    (o : Option (List SessionId)) :
    closeTransform sid (closeTransform sid o) = closeTransform sid o := by
  cases o with
  | none => rfl
  | some ss =>
    unfold closeTransform
    by_cases hd : setDelete ss sid = []
    · simp [hd]
    · simp [hd, setDelete_setDelete]

theorem mapGet_foldl_closeRoomStep (sid : SessionId) (rooms : List RoomId)
    (m : List (RoomId × List SessionId)) (r : RoomId) :
    mapGet (rooms.foldl (closeRoomStep sid) m) r =
      if r ∈ rooms then closeTransform sid (mapGet m r) else mapGet m r := by
  induction rooms generalizing m with
  | nil => simp
  | cons roomId rest ih =>
    simp only [List.foldl_cons]
    rw [ih, mapGet_closeRoomStep]
    by_cases h1 : r ∈ rest <;> by_cases h2 : r = roomId <;>
      simp [h1, h2, List.mem_cons, closeTransform_closeTransform]

theorem not_mem_closeTransform (sid : SessionId) (o : Option (List SessionId)) :
    sid ∉ (closeTransform sid o).getD [] := by
  cases o with
  | none => simp [closeTransform]
  | some ss =>
    by_cases hd : setDelete ss sid = []
    · simp [closeTransform, hd]
    · simpa [closeTransform, hd] using not_mem_setDelete ss sid

theorem mem_closeTransform_of {sid sid' : SessionId}
    {o : Option (List SessionId)} (hne : sid' ≠ sid) (h : sid' ∈ o.getD []) :
    sid' ∈ (closeTransform sid o).getD [] := by
  cases o with
  | none => simp at h
  | some ss =>
    have h2 : sid' ∈ setDelete ss sid :=
      mem_setDelete.mpr ⟨by simp only [Option.getD_some] at h; exact h, hne⟩
    have hd : ¬ setDelete ss sid = [] := by
      intro hd
      rw [hd] at h2
      simp at h2
    simpa [closeTransform, hd] using h2

theorem mem_closeTransform_inv {sid sid' : SessionId}
    {o : Option (List SessionId)} (h : sid' ∈ (closeTransform sid o).getD []) :
    sid' ∈ o.getD [] := by
  cases o with
  | none => simp [closeTransform] at h
  | some ss =>
    by_cases hd : setDelete ss sid = []
    · simp [closeTransform, hd] at h
    · simp only [closeTransform, Option.some_bind] at h
      rw [if_neg (by simp [hd])] at h
      simp only [Option.getD_some] at h
      simpa using (mem_setDelete.mp h).1

/-! ## Preservation of the consistency invariant -/

theorem mem_mapUpdate_keys {m : List (String × List String)} {k : String}
    {f : List String → List String} {p : String × List String}
    (h : p ∈ mapUpdate m k f) : ∃ q ∈ m, q.1 = p.1 := by
  unfold mapUpdate at h
  obtain ⟨q, hq, hpq⟩ := List.mem_map.mp h
  refine ⟨q, hq, ?_⟩
  by_cases h1 : q.1 = k <;> simp [← hpq, h1]

theorem mem_closeRoomStep_keys {sid : SessionId}
    {m : List (RoomId × List SessionId)} {roomId : RoomId}
    {p : RoomId × List SessionId} (h : p ∈ closeRoomStep sid m roomId) :
    ∃ q ∈ m, q.1 = p.1 := by
  unfold closeRoomStep at h
  cases hg : mapGet m roomId with
  | none => rw [hg] at h; exact ⟨p, h, rfl⟩
  | some ss =>
    simp only [hg] at h
    by_cases hd : setDelete ss sid = []
    · rw [if_pos (by simp [hd])] at h
      exact ⟨p, (List.mem_filter.mp h).1, rfl⟩
    · rw [if_neg (by simp [hd])] at h
      exact mem_mapUpdate_keys h

theorem mem_foldl_closeRoomStep_keys {sid : SessionId} {rooms : List RoomId}
    {m : List (RoomId × List SessionId)} {p : RoomId × List SessionId}
    (h : p ∈ rooms.foldl (closeRoomStep sid) m) : ∃ q ∈ m, q.1 = p.1 := by
  induction rooms generalizing m with
  | nil => exact ⟨p, h, rfl⟩
  | cons roomId rest ih =>
    simp only [List.foldl_cons] at h
    obtain ⟨q, hq, hk⟩ := ih h
    obtain ⟨q', hq', hk'⟩ := mem_closeRoomStep_keys hq
    exact ⟨q', hq', by rw [hk', hk]⟩

theorem mem_roomSet_close_inv {st : CoordState} {sid sid' : SessionId}
    {r : RoomId} (h : sid' ∈ roomSet (handleSessionClose st sid) r) :
    sid' ∈ roomSet st r := by
  cases hl : lookupSession st sid with
  | none => rwa [handleSessionClose_of_lookup_none hl] at h
  | some s =>
    rw [handleSessionClose_of_lookup hl] at h
    unfold roomSet at h ⊢
    rw [mapGet_foldl_closeRoomStep] at h
    by_cases hrr : r ∈ s.rooms
    · rw [if_pos hrr] at h
      exact mem_closeTransform_inv h
    · rwa [if_neg hrr] at h

theorem mem_roomSet_close_of {st : CoordState} {sid sid' : SessionId}
    {r : RoomId} (hne : sid' ≠ sid) (h : sid' ∈ roomSet st r) :
    sid' ∈ roomSet (handleSessionClose st sid) r := by
  cases hl : lookupSession st sid with
  | none => rwa [handleSessionClose_of_lookup_none hl]
  | some s =>
    rw [handleSessionClose_of_lookup hl]
    unfold roomSet
    rw [mapGet_foldl_closeRoomStep]
    by_cases hrr : r ∈ s.rooms
    · rw [if_pos hrr]
      exact mem_closeTransform_of hne h
    · rw [if_neg hrr]
      exact h

theorem not_mem_roomSet_close {st : CoordState} {sid : SessionId} {s : Session}
    (hl : lookupSession st sid = some s) {r : RoomId} (hr : r ∈ s.rooms) :
    sid ∉ roomSet (handleSessionClose st sid) r := by
  rw [handleSessionClose_of_lookup hl]
  unfold roomSet
  rw [mapGet_foldl_closeRoomStep, if_pos hr]
  exact not_mem_closeTransform sid (mapGet st.roomParticipants r)

theorem consistent_handleSessionClose (st : CoordState) (sid : SessionId)
    (h : Consistent st) : Consistent (handleSessionClose st sid) := by
  cases hl : lookupSession st sid with
  | none => rwa [handleSessionClose_of_lookup_none hl]
  | some s =>
    obtain ⟨h1, h2⟩ := h
    rw [handleSessionClose_of_lookup hl]
    constructor
    · intro t ht r hr
      have ht' := List.mem_filter.mp ht
      have htid : t.id ≠ sid := by simpa using ht'.2
      have hmem : t.id ∈ roomSet st r := h1 t ht'.1 r hr
      show t.id ∈ (mapGet (s.rooms.foldl (closeRoomStep sid) st.roomParticipants) r).getD []
      rw [mapGet_foldl_closeRoomStep]
      by_cases hrr : r ∈ s.rooms
      · rw [if_pos hrr]
        exact mem_closeTransform_of htid hmem
      · rw [if_neg hrr]
        exact hmem
    · intro p hp t ht hmem
      obtain ⟨q, hq, hk⟩ := mem_foldl_closeRoomStep_keys hp
      have ht' := List.mem_filter.mp ht
      have hmem' : t.id ∈ roomSet st p.1 := by
        unfold roomSet at hmem ⊢
        rw [mapGet_foldl_closeRoomStep] at hmem
        by_cases hrr : p.1 ∈ s.rooms
        · rw [if_pos hrr] at hmem
          exact mem_closeTransform_inv hmem
        · rwa [if_neg hrr] at hmem
      have hq2 := h2 q hq t ht'.1 (by rwa [hk])
      rwa [hk] at hq2

theorem consistent_staleDelete (st : CoordState) (roomKey : RoomId)
    (x : SessionId) (hx : lookupSession st x = none) (h : Consistent st) :
    Consistent { st with
      roomParticipants :=
        mapUpdate st.roomParticipants roomKey (fun ss => setDelete ss x) } := by
  obtain ⟨h1, h2⟩ := h
  have hxid : ∀ t ∈ st.activeConnections, t.id ≠ x := lookupSession_none_iff.mp hx
  constructor
  · intro t ht r hr
    have hmem : t.id ∈ roomSet st r := h1 t ht r hr
    show t.id ∈ (mapGet (mapUpdate st.roomParticipants roomKey
      (fun ss => setDelete ss x)) r).getD []
    rw [mapGet_mapUpdate]
    by_cases hrr : r = roomKey
    · rw [if_pos hrr]
      cases hg : mapGet st.roomParticipants r with
      | none =>
        unfold roomSet at hmem
        rw [hg] at hmem
        simp at hmem
      | some ss =>
        unfold roomSet at hmem
        rw [hg] at hmem
        simp only [Option.getD_some] at hmem
        simp only [Option.map_some', Option.getD_some]
        exact mem_setDelete.mpr ⟨hmem, hxid t ht⟩
    · rw [if_neg hrr]
      exact hmem
  · intro p hp t ht hmem
    obtain ⟨q, hq, hk⟩ := mem_mapUpdate_keys hp
    have hmem' : t.id ∈ roomSet st p.1 := by
      unfold roomSet at hmem ⊢
      rw [mapGet_mapUpdate] at hmem
      by_cases hrr : p.1 = roomKey
      · rw [if_pos hrr] at hmem
        cases hg : mapGet st.roomParticipants p.1 with
        | none => rw [hg] at hmem; simp at hmem
        | some ss =>
          rw [hg] at hmem
          simp only [Option.map_some', Option.getD_some] at hmem
          simp only [Option.getD_some]
          exact (mem_setDelete.mp hmem).1
      · rwa [if_neg hrr] at hmem
    have hq2 := h2 q hq t ht (by rwa [hk])
    rwa [hk] at hq2

theorem mapGet_handleRoomJoin_rp (st : CoordState) (session : Session)
    (roomId r : RoomId) :
    mapGet (handleRoomJoin st session roomId).roomParticipants r =
      if r = roomId then some (setAdd (roomSet st roomId) session.id)
      else mapGet st.roomParticipants r := by
  unfold handleRoomJoin
  dsimp only
  rw [mapGet_mapUpdate]
  by_cases hr : r = roomId
  · rw [if_pos hr, if_pos hr, hr]
    by_cases hh : mapHas st.roomParticipants roomId
    · rw [if_pos hh]
      obtain ⟨ss, hss⟩ :=
        Option.isSome_iff_exists.mp (by simpa [mapHas] using hh)
      rw [hss]
      unfold roomSet
      rw [hss]
      simp
    · rw [if_neg hh, mapGet_append_singleton]
      have hnone : mapGet st.roomParticipants roomId = none := by
        have h2 : ¬ (mapGet st.roomParticipants roomId).isSome = true := by
          simpa [mapHas] using hh
        exact Option.not_isSome_iff_eq_none.mp (by simpa using h2)
      rw [hnone]
      unfold roomSet
      rw [hnone]
      simp
  · rw [if_neg hr, if_neg hr]
    by_cases hh : mapHas st.roomParticipants roomId
    · rw [if_pos hh]
    · rw [if_neg hh, mapGet_append_singleton]
      cases hg : mapGet st.roomParticipants r with
      | none => simp [hr]
      | some ss => simp

theorem consistent_handleRoomJoin (st : CoordState) (session : Session)
    (roomId : RoomId) (h : Consistent st) :
    Consistent (handleRoomJoin st session roomId) := by
  obtain ⟨h1, h2⟩ := h
  constructor
  · intro t ht r hr
    have ht' : t ∈ List.map
        (fun s => if s.id = session.id then joinUpd roomId s else s)
        st.activeConnections := ht
    obtain ⟨t₀, ht₀, rfl⟩ := List.mem_map.mp ht'
    have hgid : (if t₀.id = session.id then joinUpd roomId t₀ else t₀).id
        = t₀.id := by
      by_cases h0 : t₀.id = session.id <;> simp [h0, joinUpd]
    show _ ∈ (mapGet (handleRoomJoin st session roomId).roomParticipants r).getD []
    rw [mapGet_handleRoomJoin_rp, hgid]
    by_cases h0 : t₀.id = session.id
    · rw [if_pos h0] at hr
      have hr' : r ∈ setAdd t₀.rooms roomId := hr
      rcases mem_setAdd.mp hr' with hrin | hreq
      · by_cases hrr : r = roomId
        · rw [if_pos hrr]
          simp only [Option.getD_some]
          rw [h0]
          exact self_mem_setAdd _ _
        · rw [if_neg hrr]
          exact h1 t₀ ht₀ r hrin
      · rw [if_pos hreq]
        simp only [Option.getD_some]
        rw [h0]
        exact self_mem_setAdd _ _
    · rw [if_neg h0] at hr
      have hmem := h1 t₀ ht₀ r hr
      by_cases hrr : r = roomId
      · rw [if_pos hrr]
        simp only [Option.getD_some]
        exact mem_setAdd.mpr (Or.inl (hrr ▸ hmem))
      · rw [if_neg hrr]
        exact hmem
  · intro p hp t ht hmem
    have ht' : t ∈ List.map
        (fun s => if s.id = session.id then joinUpd roomId s else s)
        st.activeConnections := ht
    obtain ⟨t₀, ht₀, rfl⟩ := List.mem_map.mp ht'
    have hgid : (if t₀.id = session.id then joinUpd roomId t₀ else t₀).id
        = t₀.id := by
      by_cases h0 : t₀.id = session.id <;> simp [h0, joinUpd]
    have hp' : p ∈ mapUpdate
        (if mapHas st.roomParticipants roomId then st.roomParticipants
         else st.roomParticipants ++ [(roomId, [])])
        roomId (fun ss => setAdd ss session.id) := hp
    unfold roomSet at hmem
    rw [mapGet_handleRoomJoin_rp, hgid] at hmem
    by_cases hpk : p.1 = roomId
    · rw [if_pos hpk] at hmem
      simp only [Option.getD_some] at hmem
      rcases mem_setAdd.mp hmem with hin | heq
      · have hex : ∃ ss, mapGet st.roomParticipants roomId = some ss := by
          cases hg : mapGet st.roomParticipants roomId with
          | none =>
            unfold roomSet at hin
            rw [hg] at hin
            simp at hin
          | some ss => exact ⟨ss, rfl⟩
        obtain ⟨ss, hss⟩ := hex
        obtain ⟨q, hq, hk1, _⟩ := mapGet_eq_some_mem hss
        have hmem2 : t₀.id ∈ roomSet st q.1 := by rw [hk1]; exact hin
        have hq2 := h2 q hq t₀ ht₀ hmem2
        rw [hk1] at hq2
        rw [hpk]
        by_cases h0 : t₀.id = session.id
        · rw [if_pos h0]
          exact mem_setAdd.mpr (Or.inl hq2)
        · rw [if_neg h0]
          exact hq2
      · rw [hpk]
        by_cases h0 : t₀.id = session.id
        · rw [if_pos h0]
          exact self_mem_setAdd _ _
        · exact absurd heq h0
    · rw [if_neg hpk] at hmem
      obtain ⟨q, hq, hk⟩ := mem_mapUpdate_keys hp'
      have hq' : q ∈ st.roomParticipants := by
        by_cases hh : mapHas st.roomParticipants roomId
        · rw [if_pos hh] at hq
          exact hq
        · rw [if_neg hh] at hq
          rcases List.mem_append.mp hq with hq1 | hq1
          · exact hq1
          · have : q.1 = roomId := by
              rw [List.mem_singleton.mp hq1]
            exact absurd (by rw [← hk, this]) hpk
      have hmem2 : t₀.id ∈ roomSet st q.1 := by
        rw [hk]
        exact hmem
      have hq2 := h2 q hq' t₀ ht₀ hmem2
      rw [hk] at hq2
      by_cases h0 : t₀.id = session.id
      · rw [if_pos h0]
        exact mem_setAdd.mpr (Or.inl hq2)
      · rw [if_neg h0]
        exact hq2

theorem mapGet_handleRoomLeave_rp (st : CoordState) (session : Session)
    (roomId r : RoomId) :
    mapGet (handleRoomLeave st session roomId).roomParticipants r =
      if r = roomId then
        (mapGet st.roomParticipants roomId).map
          (fun ss => setDelete ss session.id)
      else mapGet st.roomParticipants r := by
  unfold handleRoomLeave
  dsimp only
  rw [mapGet_mapUpdate]
  by_cases hr : r = roomId <;> simp [hr]

theorem consistent_handleRoomLeave (st : CoordState) (session : Session)
    (roomId : RoomId) (h : Consistent st) :
    Consistent (handleRoomLeave st session roomId) := by
  obtain ⟨h1, h2⟩ := h
  constructor
  · intro t ht r hr
    have ht' : t ∈ List.map
        (fun s => if s.id = session.id then leaveUpd roomId s else s)
        st.activeConnections := ht
    obtain ⟨t₀, ht₀, rfl⟩ := List.mem_map.mp ht'
    have hgid : (if t₀.id = session.id then leaveUpd roomId t₀ else t₀).id
        = t₀.id := by
      by_cases h0 : t₀.id = session.id <;> simp [h0, leaveUpd]
    show _ ∈ (mapGet (handleRoomLeave st session roomId).roomParticipants r).getD []
    rw [mapGet_handleRoomLeave_rp, hgid]
    by_cases h0 : t₀.id = session.id
    · rw [if_pos h0] at hr
      obtain ⟨hrin, hrne⟩ := mem_setDelete.mp hr
      rw [if_neg hrne]
      exact h1 t₀ ht₀ r hrin
    · rw [if_neg h0] at hr
      have hmem := h1 t₀ ht₀ r hr
      by_cases hrr : r = roomId
      · rw [if_pos hrr]
        have hmem' : t₀.id ∈ roomSet st roomId := hrr ▸ hmem
        unfold roomSet at hmem'
        cases hg : mapGet st.roomParticipants roomId with
        | none =>
          rw [hg] at hmem'
          simp at hmem'
        | some ss =>
          rw [hg] at hmem'
          simp only [Option.getD_some] at hmem'
          simp only [Option.map_some', Option.getD_some]
          exact mem_setDelete.mpr ⟨hmem', h0⟩
      · rw [if_neg hrr]
        exact hmem
  · intro p hp t ht hmem
    have ht' : t ∈ List.map
        (fun s => if s.id = session.id then leaveUpd roomId s else s)
        st.activeConnections := ht
    obtain ⟨t₀, ht₀, rfl⟩ := List.mem_map.mp ht'
    have hgid : (if t₀.id = session.id then leaveUpd roomId t₀ else t₀).id
        = t₀.id := by
      by_cases h0 : t₀.id = session.id <;> simp [h0, leaveUpd]
    have hp' : p ∈ mapUpdate st.roomParticipants roomId
        (fun ss => setDelete ss session.id) := hp
    obtain ⟨q, hq, hk⟩ := mem_mapUpdate_keys hp'
    unfold roomSet at hmem
    rw [mapGet_handleRoomLeave_rp, hgid] at hmem
    by_cases hpk : p.1 = roomId
    · rw [if_pos hpk] at hmem
      cases hg : mapGet st.roomParticipants roomId with
      | none =>
        rw [hg] at hmem
        simp at hmem
      | some ss =>
        rw [hg] at hmem
        simp only [Option.map_some', Option.getD_some] at hmem
        obtain ⟨hin, hne⟩ := mem_setDelete.mp hmem
        have hmem2 : t₀.id ∈ roomSet st q.1 := by
          rw [hk, hpk]
          unfold roomSet
          rw [hg]
          simpa using hin
        have hq2 := h2 q hq t₀ ht₀ hmem2
        rw [hk] at hq2
        by_cases h0 : t₀.id = session.id
        · exact absurd h0 hne
        · rw [if_neg h0]
          exact hq2
    · rw [if_neg hpk] at hmem
      have hmem2 : t₀.id ∈ roomSet st q.1 := by
        rw [hk]
        exact hmem
      have hq2 := h2 q hq t₀ ht₀ hmem2
      rw [hk] at hq2
      by_cases h0 : t₀.id = session.id
      · rw [if_pos h0]
        exact mem_setDelete.mpr ⟨hq2, hpk⟩
      · rw [if_neg h0]
        exact hq2

theorem consistent_handleMessage (st : CoordState) (sid : SessionId)
    (msg : WsMessage) (h : Consistent st) :
    Consistent (handleMessage st sid msg) := by
  unfold handleMessage
  cases hl : lookupSession st sid with
  | none => exact h
  | some session =>
    cases msg with
    | roomJoin roomId => exact consistent_handleRoomJoin st session roomId h
    | roomLeave roomId => exact consistent_handleRoomLeave st session roomId h

theorem consistent_globalLoop (l : List Session) (st : CoordState) (n : Nat)
    (sent : List SessionId) (h : Consistent st) :
    Consistent (globalLoop l st n sent).1 := by
  induction l generalizing st n sent with
  | nil => exact h
  | cons s rest ih =>
    unfold globalLoop
    by_cases ho : s.readyState = wsOPEN
    · rw [if_pos ho]
      exact ih st (n + 1) (sent ++ [s.id]) h
    · rw [if_neg ho]
      exact ih (handleSessionClose st s.id) n sent
        (consistent_handleSessionClose st s.id h)

theorem consistent_roomLoop (roomKey : RoomId) (ids : List SessionId)
    (st : CoordState) (n : Nat) (sent : List SessionId) (h : Consistent st) :
    Consistent (roomLoop roomKey ids st n sent).1 := by
  induction ids generalizing st n sent with
  | nil => exact h
  | cons sid rest ih =>
    unfold roomLoop
    cases hl : lookupSession st sid with
    | none =>
      exact ih _ n sent (consistent_staleDelete st roomKey sid hl h)
    | some s =>
      dsimp only
      by_cases ho : s.readyState = wsOPEN
      · rw [if_pos ho]
        exact ih st (n + 1) (sent ++ [s.id]) h
      · rw [if_neg ho]
        exact ih (handleSessionClose st sid) n sent
          (consistent_handleSessionClose st sid h)

theorem consistent_handleBroadcast (st : CoordState) (raw : Json)
    (h : Consistent st) : Consistent (handleBroadcast st raw).state := by
  unfold handleBroadcast
  cases hp : parseBroadcastMessage raw with
  | none => exact h
  | some env =>
    dsimp only
    by_cases hty : env.type = "notification:deleted" ∨
        env.type = "notification:cleared"
    · rw [if_pos hty]
      exact consistent_globalLoop st.activeConnections st 0 [] h
    · rw [if_neg hty]
      cases hrid : payloadRoomId env.payload with
      | none => exact h
      | some rid =>
        dsimp only
        by_cases hf : jsFalsy rid
        · rw [if_pos hf]
          exact h
        · rw [if_neg hf]
          cases hg : mapGet st.roomParticipants (strCoerce rid) with
          | none => exact h
          | some roomSessions =>
            exact consistent_roomLoop (strCoerce rid) roomSessions st 0 [] h

/-! ## Loop lemmas for the broadcast fan-out -/

theorem isOpenIn_close {st : CoordState} {x : SessionId}
    (hx : isOpenIn st x = false) (sid : SessionId) :
    isOpenIn (handleSessionClose st x) sid = isOpenIn st sid := by
  by_cases h : sid = x
  · subst h
    have h1 : isOpenIn (handleSessionClose st sid) sid = false := by
      unfold isOpenIn
      rw [lookupSession_close_self]
    rw [h1, hx]
  · unfold isOpenIn
    rw [lookupSession_close_other st h]

theorem mem_mapUpdate_setDelete_inv {m : List (String × List String)}
    {k : String} {x sid' : SessionId} {r : String}
    (h : sid' ∈ (mapGet (mapUpdate m k (fun ss => setDelete ss x)) r).getD []) :
    sid' ∈ (mapGet m r).getD [] := by
  rw [mapGet_mapUpdate] at h
  by_cases hr : r = k
  · rw [if_pos hr] at h
    cases hg : mapGet m r with
    | none => rw [hg] at h; simp at h
    | some ss =>
      rw [hg] at h
      simp only [Option.map_some', Option.getD_some] at h
      simp only [Option.getD_some]
      exact (mem_setDelete.mp h).1
  · rwa [if_neg hr] at h

theorem roomLoop_lookup_none (roomKey : RoomId) (ids : List SessionId) :
    ∀ (st : CoordState) (n : Nat) (sent : List SessionId) (sid : SessionId),
      lookupSession st sid = none →
      lookupSession (roomLoop roomKey ids st n sent).1 sid = none := by
  induction ids with
  | nil => intro st n sent sid h; exact h
  | cons sid₀ rest ih =>
    intro st n sent sid h
    unfold roomLoop
    cases hl : lookupSession st sid₀ with
    | none => exact ih _ n sent sid h
    | some s =>
      dsimp only
      by_cases ho : s.readyState = wsOPEN
      · rw [if_pos ho]
        exact ih st (n + 1) (sent ++ [s.id]) sid h
      · rw [if_neg ho]
        exact ih _ n sent sid (lookupSession_close_none h)

theorem roomLoop_not_mem_roomSet (roomKey : RoomId) (ids : List SessionId) :
    ∀ (st : CoordState) (n : Nat) (sent : List SessionId) (sid : SessionId)
      (r : RoomId), sid ∉ roomSet st r →
      sid ∉ roomSet (roomLoop roomKey ids st n sent).1 r := by
  induction ids with
  | nil => intro st n sent sid r h; exact h
  | cons sid₀ rest ih =>
    intro st n sent sid r h
    unfold roomLoop
    cases hl : lookupSession st sid₀ with
    | none =>
      refine ih _ n sent sid r ?_
      intro hmem
      exact h (mem_mapUpdate_setDelete_inv hmem)
    | some s =>
      dsimp only
      by_cases ho : s.readyState = wsOPEN
      · rw [if_pos ho]
        exact ih st (n + 1) (sent ++ [s.id]) sid r h
      · rw [if_neg ho]
        refine ih _ n sent sid r ?_
        intro hmem
        exact h (mem_roomSet_close_inv hmem)

theorem roomLoop_count (roomKey : RoomId) (ids : List SessionId) :
    ∀ (st : CoordState) (n : Nat) (sent : List SessionId),
      (roomLoop roomKey ids st n sent).2.1 =
        n + ids.countP (fun sid => isOpenIn st sid) := by
  induction ids with
  | nil => intro st n sent; simp [roomLoop]
  | cons sid₀ rest ih =>
    intro st n sent
    unfold roomLoop
    rw [List.countP_cons]
    cases hl : lookupSession st sid₀ with
    | none =>
      have hfalse : isOpenIn st sid₀ = false := by simp [isOpenIn, hl]
      rw [ih _ n sent, hfalse]
      have hsame : List.countP (fun sid => isOpenIn { st with
          roomParticipants := mapUpdate st.roomParticipants roomKey
            (fun ss => setDelete ss sid₀) } sid) rest
          = List.countP (fun sid => isOpenIn st sid) rest := rfl
      rw [hsame]
      simp
    | some s =>
      dsimp only
      by_cases ho : s.readyState = wsOPEN
      · have htrue : isOpenIn st sid₀ = true := by simp [isOpenIn, hl, ho]
        rw [if_pos ho, ih st (n + 1) (sent ++ [s.id]), htrue]
        simp
        omega
      · have hfalse : isOpenIn st sid₀ = false := by simp [isOpenIn, hl, ho]
        rw [if_neg ho, ih _ n sent, hfalse]
        have hcongr : rest.countP (fun sid => isOpenIn (handleSessionClose st sid₀) sid)
            = rest.countP (fun sid => isOpenIn st sid) := by
          apply List.countP_congr
          intro x _
          rw [isOpenIn_close hfalse x]
        rw [hcongr]
        simp

theorem roomLoop_cleanup (roomKey : RoomId) (ids : List SessionId) :
    ∀ (st : CoordState) (n : Nat) (sent : List SessionId),
      Consistent st → ids.Nodup →
      (∀ x ∈ ids, x ∈ roomSet st roomKey) →
      ∀ sid ∈ ids, isOpenIn st sid = false →
        lookupSession (roomLoop roomKey ids st n sent).1 sid = none ∧
        sid ∉ roomSet (roomLoop roomKey ids st n sent).1 roomKey := by
  induction ids with
  | nil => intro st n sent _ _ _ sid hsid; exact absurd hsid (List.not_mem_nil sid)
  | cons sid₀ rest ih =>
    intro st n sent hcons hnd hmem sid hsid hopen
    have hnd' := List.nodup_cons.mp hnd
    unfold roomLoop
    cases hl : lookupSession st sid₀ with
    | none =>
      rcases List.mem_cons.mp hsid with rfl | hsid'
      · constructor
        · exact roomLoop_lookup_none roomKey rest _ n sent sid hl
        · refine roomLoop_not_mem_roomSet roomKey rest _ n sent sid roomKey ?_
          show sid ∉ (mapGet (mapUpdate st.roomParticipants roomKey
            (fun ss => setDelete ss sid)) roomKey).getD []
          rw [mapGet_mapUpdate, if_pos rfl]
          cases hg : mapGet st.roomParticipants roomKey with
          | none => simp
          | some ss =>
            simp only [Option.map_some', Option.getD_some]
            exact not_mem_setDelete ss sid
      · have hcons₁ := consistent_staleDelete st roomKey sid₀ hl hcons
        have hmem₁ : ∀ x ∈ rest, x ∈ roomSet { st with
            roomParticipants := mapUpdate st.roomParticipants roomKey
              (fun ss => setDelete ss sid₀) } roomKey := by
          intro x hx
          have hxne : x ≠ sid₀ := by rintro rfl; exact hnd'.1 hx
          have hxm : x ∈ roomSet st roomKey := hmem x (List.mem_cons_of_mem _ hx)
          show x ∈ (mapGet (mapUpdate st.roomParticipants roomKey
            (fun ss => setDelete ss sid₀)) roomKey).getD []
          rw [mapGet_mapUpdate, if_pos rfl]
          unfold roomSet at hxm
          cases hg : mapGet st.roomParticipants roomKey with
          | none => rw [hg] at hxm; simp at hxm
          | some ss =>
            rw [hg] at hxm
            simp only [Option.getD_some] at hxm
            simp only [Option.map_some', Option.getD_some]
            exact mem_setDelete.mpr ⟨hxm, hxne⟩
        exact ih _ n sent hcons₁ hnd'.2 hmem₁ sid hsid' hopen
    | some s =>
      dsimp only
      by_cases ho : s.readyState = wsOPEN
      · rw [if_pos ho]
        rcases List.mem_cons.mp hsid with rfl | hsid'
        · exfalso
          have : isOpenIn st sid = true := by simp [isOpenIn, hl, ho]
          rw [this] at hopen
          exact Bool.noConfusion hopen
        · exact ih st (n + 1) (sent ++ [s.id]) hcons hnd'.2
            (fun x hx => hmem x (List.mem_cons_of_mem _ hx)) sid hsid' hopen
      · rw [if_neg ho]
        have hof : isOpenIn st sid₀ = false := by simp [isOpenIn, hl, ho]
        rcases List.mem_cons.mp hsid with rfl | hsid'
        · constructor
          · exact roomLoop_lookup_none roomKey rest _ n sent sid
              (lookupSession_close_self st sid)
          · refine roomLoop_not_mem_roomSet roomKey rest _ n sent sid roomKey ?_
            have hin : sid ∈ roomSet st roomKey := hmem sid (List.mem_cons_self _ _)
            have hex : ∃ ss, mapGet st.roomParticipants roomKey = some ss := by
              cases hg : mapGet st.roomParticipants roomKey with
              | none =>
                unfold roomSet at hin
                rw [hg] at hin
                simp at hin
              | some ss => exact ⟨ss, rfl⟩
            obtain ⟨ss, hss⟩ := hex
            obtain ⟨q, hq, hk1, _⟩ := mapGet_eq_some_mem hss
            obtain ⟨hsmem, hsid0⟩ := lookupSession_mem hl
            have hkr := hcons.2 q hq s hsmem (by rw [hk1, hsid0]; exact hin)
            rw [hk1] at hkr
            exact not_mem_roomSet_close hl hkr
        · have hcons₁ := consistent_handleSessionClose st sid₀ hcons
          have hmem₁ : ∀ x ∈ rest, x ∈ roomSet (handleSessionClose st sid₀) roomKey := by
            intro x hx
            have hxne : x ≠ sid₀ := by rintro rfl; exact hnd'.1 hx
            exact mem_roomSet_close_of hxne (hmem x (List.mem_cons_of_mem _ hx))
          refine ih _ n sent hcons₁ hnd'.2 hmem₁ sid hsid' ?_
          rw [isOpenIn_close hof sid]
          exact hopen

/-! ## Sweep lemmas for the reaper -/

theorem sweep_lookup_none (failsOn : SessionId → Bool) (l : List Session) :
    ∀ (st st2 : CoordState) (sid : SessionId),
      sweep failsOn l st = .ok st2 → lookupSession st sid = none →
      lookupSession st2 sid = none := by
  induction l with
  | nil =>
    intro st st2 sid hs h
    unfold sweep at hs
    cases hs
    exact h
  | cons s rest ih =>
    intro st st2 sid hs h
    unfold sweep at hs
    by_cases ho : s.readyState = wsOPEN
    · rw [if_pos ho] at hs
      exact ih st st2 sid hs h
    · rw [if_neg ho] at hs
      by_cases hf : failsOn s.id
      · rw [if_pos hf] at hs
        exact absurd hs (by simp)
      · rw [if_neg hf] at hs
        exact ih _ st2 sid hs (lookupSession_close_none h)

theorem sweep_ok (failsOn : SessionId → Bool) (l : List Session) :
    ∀ (st : CoordState),
      (∀ s ∈ l, s.readyState ≠ wsOPEN → failsOn s.id = false) →
      ∃ st2, sweep failsOn l st = .ok st2 ∧
        ∀ s ∈ l, s.readyState ≠ wsOPEN → lookupSession st2 s.id = none := by
  induction l with
  | nil =>
    intro st _
    exact ⟨st, rfl, fun s hs => absurd hs (List.not_mem_nil s)⟩
  | cons s rest ih =>
    intro st hfail
    unfold sweep
    by_cases ho : s.readyState = wsOPEN
    · rw [if_pos ho]
      obtain ⟨st2, hok, hclean⟩ :=
        ih st (fun t ht => hfail t (List.mem_cons_of_mem _ ht))
      refine ⟨st2, hok, ?_⟩
      intro t ht hto
      rcases List.mem_cons.mp ht with rfl | ht'
      · exact absurd ho hto
      · exact hclean t ht' hto
    · rw [if_neg ho]
      have hf : failsOn s.id = false := hfail s (List.mem_cons_self _ _) ho
      rw [if_neg (by simp [hf])]
      obtain ⟨st2, hok, hclean⟩ :=
        ih (handleSessionClose st s.id)
          (fun t ht => hfail t (List.mem_cons_of_mem _ ht))
      refine ⟨st2, hok, ?_⟩
      intro t ht hto
      rcases List.mem_cons.mp ht with rfl | ht'
      · exact sweep_lookup_none failsOn rest _ st2 t.id hok
          (lookupSession_close_self st t.id)
      · exact hclean t ht' hto

/-! ## Idempotence helpers -/

theorem mapUpdate_congr (m : List (String × List String)) (k : String)
    {f g : List String → List String} (h : ∀ v, f v = g v) :
    mapUpdate m k f = mapUpdate m k g := by
  unfold mapUpdate
  apply List.map_congr_left
  intro p _
  by_cases hp : p.1 = k <;> simp [hp, h]

theorem updateSession_comp (l : List Session) (sid : SessionId)
    (f g : Session → Session) (hf : ∀ s, (f s).id = s.id) :
    updateSession (updateSession l sid f) sid g =
      updateSession l sid (fun s => g (f s)) := by
  unfold updateSession
  rw [List.map_map]
  apply List.map_congr_left
  intro s _
  by_cases h : s.id = sid <;> simp [Function.comp, h, hf]

theorem updateSession_congr (l : List Session) (sid : SessionId)
    {f g : Session → Session} (h : ∀ s, f s = g s) :
    updateSession l sid f = updateSession l sid g := by
  unfold updateSession
  apply List.map_congr_left
  intro s _
  by_cases hs : s.id = sid <;> simp [hs, h]

theorem mapGet_ensure (m : List (String × List String)) (k : String) :
    mapGet (if mapHas m k then m else m ++ [(k, [])]) k =
      some ((mapGet m k).getD []) := by
  by_cases hh : mapHas m k
  · rw [if_pos hh]
    obtain ⟨ss, hss⟩ := Option.isSome_iff_exists.mp (by simpa [mapHas] using hh)
    rw [hss]
    simp
  · rw [if_neg hh, mapGet_append_singleton]
    have hnone : mapGet m k = none := by
      have h2 : ¬ (mapGet m k).isSome = true := by simpa [mapHas] using hh
      exact Option.not_isSome_iff_eq_none.mp (by simpa using h2)
    rw [hnone]
    simp

/-! ## Running `handleBroadcast` under the room-scoped hypotheses -/

theorem handleBroadcast_room {st : CoordState} {raw : Json} {env : Envelope}
    {rid : StrOrNum} {ids : List SessionId}
    (hp : parseBroadcastMessage raw = some env)
    (h1 : env.type ≠ "notification:deleted")
    (h2 : env.type ≠ "notification:cleared")
    (hrid : payloadRoomId env.payload = some rid)
    (hf : jsFalsy rid = false)
    (hm : mapGet st.roomParticipants (strCoerce rid) = some ids) :
    handleBroadcast st raw =
      ⟨(roomLoop (strCoerce rid) ids st 0 []).1,
       .success (roomLoop (strCoerce rid) ids st 0 []).2.1,
       (roomLoop (strCoerce rid) ids st 0 []).2.2⟩ := by
  unfold handleBroadcast
  rw [hp]
  dsimp only
  have hty : ¬ (env.type = "notification:deleted" ∨
      env.type = "notification:cleared") := by
    rintro (h | h)
    · exact h1 h
    · exact h2 h
  rw [if_neg hty, hrid]
  dsimp only
  rw [if_neg (by simp [hf]), hm]

theorem handleBroadcast_roomNotFound {st : CoordState} {raw : Json}
    {env : Envelope} {rid : StrOrNum}
    (hp : parseBroadcastMessage raw = some env)
    (h1 : env.type ≠ "notification:deleted")
    (h2 : env.type ≠ "notification:cleared")
    (hrid : payloadRoomId env.payload = some rid)
    (hf : jsFalsy rid = false)
    (hm : mapGet st.roomParticipants (strCoerce rid) = none) :
    handleBroadcast st raw = ⟨st, .roomNotFound, []⟩ := by
  unfold handleBroadcast
  rw [hp]
  dsimp only
  have hty : ¬ (env.type = "notification:deleted" ∨
      env.type = "notification:cleared") := by
    rintro (h | h)
    · exact h1 h
    · exact h2 h
  rw [if_neg hty, hrid]
  dsimp only
  rw [if_neg (by simp [hf]), hm]

/-! ## Claim theorems -/

/-- C10: for every well-formed, correctly signed token whose payload omits the
`exp` claim or carries `exp = 0`, verification succeeds for every current
time and never fails with an expiration error — the expiry check in both
`decode` (jwt.ts 181) and `verifyToken` (socket.ts 69) is guarded by JS
truthiness of `exp`, so such tokens are accepted indefinitely. -/
theorem c10_no_exp_accepted_indefinitely (t : Jwt.TokenModel) (now : Int)
    (h1 : t.wellFormed = true) (h2 : t.algOk = true) (h3 : t.sigOk = true)
    (h4 : t.payload.exp = none ∨ t.payload.exp = some 0) :
    Jwt.decode t now = .ok t.payload ∧
      (t.payload.sub ≠ "" → Jwt.verifyToken true t now = .ok t.payload) := by
  have hexp : Jwt.expTruthy t.payload.exp = false := by
    rcases h4 with h | h <;> simp [Jwt.expTruthy, h]
  have hdec : Jwt.decode t now = .ok t.payload := by
    unfold Jwt.decode
    rw [if_neg (by simp [h1]), if_neg (by simp [h2]), if_neg (by simp [h3]),
      if_neg (by simp [hexp])]
  refine ⟨hdec, fun hsub => ?_⟩
  unfold Jwt.verifyToken
  rw [if_neg (by simp), hdec]
  dsimp only
  rw [if_neg hsub, if_neg (by simp [hexp])]

theorem c10_witness :
    Jwt.decode tokC10 1760000000 = .ok tokC10.payload ∧
      Jwt.verifyToken true tokC10 1760000000 = .ok tokC10.payload := by
  have h := c10_no_exp_accepted_indefinitely tokC10 1760000000 rfl rfl rfl
    (Or.inl rfl)
  exact ⟨h.1, h.2 (by decide)⟩

/-- C7: for a validated envelope whose tag is not one of the two global tags
and whose payload carries a truthy `roomId` (i.e. a room-scoped broadcast
with a target room), the call fails with 404 RoomNotFound exactly when the
Membership Index has no entry at all for the coerced room key; when an entry
exists but its session set is empty, the call instead succeeds with
`recipients: 0` and delivers to nobody. -/
theorem c7_roomNotFound_iff_no_entry (st : CoordState) (raw : Json)
    (env : Envelope) (rid : StrOrNum)
    (hp : parseBroadcastMessage raw = some env)
    (h1 : env.type ≠ "notification:deleted")
    (h2 : env.type ≠ "notification:cleared")
    (hrid : payloadRoomId env.payload = some rid)
    (hf : jsFalsy rid = false) :
    ((handleBroadcast st raw).result = .roomNotFound ↔
      mapGet st.roomParticipants (strCoerce rid) = none) ∧
    (mapGet st.roomParticipants (strCoerce rid) = some [] →
      (handleBroadcast st raw).result = .success 0 ∧
        (handleBroadcast st raw).sent = []) := by
  constructor
  · constructor
    · intro hres
      by_contra hne
      obtain ⟨ids, hids⟩ := Option.ne_none_iff_exists'.mp hne
      rw [handleBroadcast_room hp h1 h2 hrid hf hids] at hres
      simp at hres
    · intro hnone
      rw [handleBroadcast_roomNotFound hp h1 h2 hrid hf hnone]
  · intro hempty
    rw [handleBroadcast_room hp h1 h2 hrid hf hempty]
    exact ⟨rfl, rfl⟩

theorem c7_witness :
    ((handleBroadcast stC7 rawC7).result = .roomNotFound ↔
      mapGet stC7.roomParticipants "E" = none) ∧
    ((handleBroadcast stC7 rawC7).result = .success 0 ∧
      (handleBroadcast stC7 rawC7).sent = []) := by
  have h := c7_roomNotFound_iff_no_entry stC7 rawC7 envC7 (.str "E") rfl
    (by decide) (by decide) rfl rfl
  exact ⟨h.1, h.2 rfl⟩

/-- C3: the code violates this claim.  A valid `notification:created`
envelope is NOT treated as global by `handleBroadcast`: only
`notification:deleted` and `notification:cleared` select the global branch
(socket.ts 351–352), so a `notification:created` envelope falls through to
the room-scoped branch, whose validated payload carries no `roomId`, and the
call is rejected with 400 "Room ID required" and delivered to zero sessions
— even with an open session registered, and even though
`handlers/notifications.ts` posts exactly such envelopes to this endpoint
for global delivery and the client's event map handles them. -/
theorem c3_notification_created_rejected :
    handleBroadcast stC3 rawC3 = ⟨stC3, .roomIdRequired, []⟩ ∧
    isOpenIn stC3 "A" = true := ⟨rfl, rfl⟩

/-- C2 counterexample: the claim says an envelope whose type tag is not a
recognized wire tag is rejected as InvalidEnvelope and delivered to zero
sessions.  The schema validates `type` as `z.string()` only, so the envelope
`{type: 'bogus:tag', payload: <valid chat payload for room 5>}` passes
validation and is DELIVERED: with open session `A` in room `5`, broadcast
returns success with 1 recipient and sends to `A`. -/
theorem c2_counterexample :
    (handleBroadcast stC2 rawC2).result = .success 1 ∧
      (handleBroadcast stC2 rawC2).sent = ["A"] := ⟨rfl, rfl⟩

/-- C2 amended: only an envelope whose payload matches none of the known
payload shapes is rejected — as the catch-all 500 internal error (not a
400), with zero deliveries and no state change; the type tag itself is never
checked against a closed set. -/
theorem c2_amended_bad_payload_rejected (st : CoordState) (raw : Json)
    (h : parseBroadcastMessage raw = none) :
    handleBroadcast st raw = ⟨st, .internalError, []⟩ := by
  unfold handleBroadcast
  rw [h]

theorem c2_amended_witness :
    parseBroadcastMessage rawC2empty = none ∧
      handleBroadcast stC2 rawC2empty = ⟨stC2, .internalError, []⟩ :=
  ⟨rfl, c2_amended_bad_payload_rejected stC2 rawC2empty rfl⟩

/-- C4 counterexample: the claim says a leave that empties a room deletes
the room's entry entirely.  In the state where `A` is the sole member of
room `1`, after the leave frame the Membership Index still holds the entry
`("1", ∅)` — `handleRoomLeave` never deletes empty entries (only
`handleSessionClose` does). -/
theorem c4_counterexample :
    (handleMessage stC4 "A" (.roomLeave "1")).roomParticipants = [("1", [])] ∧
      mapGet (handleMessage stC4 "A" (.roomLeave "1")).roomParticipants "1" ≠
        none := ⟨rfl, by decide⟩

/-- C4 amended: after leaveRoom(S, R) the entry for R no longer contains S's
id, but the entry itself always survives with the id merely removed from its
set (possibly leaving an empty entry); leaveRoom never deletes a room entry. -/
theorem c4_amended_leave_keeps_entry (st : CoordState) (sid : SessionId)
    (s : Session) (roomId : RoomId) (h : lookupSession st sid = some s) :
    mapGet (handleMessage st sid (.roomLeave roomId)).roomParticipants roomId =
      (mapGet st.roomParticipants roomId).map (fun ss => setDelete ss sid) ∧
    sid ∉ roomSet (handleMessage st sid (.roomLeave roomId)) roomId := by
  have hsid : s.id = sid := (lookupSession_mem h).2
  have hmsg : handleMessage st sid (.roomLeave roomId) =
      handleRoomLeave st s roomId := by
    unfold handleMessage
    rw [h]
  rw [hmsg]
  constructor
  · rw [mapGet_handleRoomLeave_rp, if_pos rfl, hsid]
  · unfold roomSet
    rw [mapGet_handleRoomLeave_rp, if_pos rfl, hsid]
    cases hg : mapGet st.roomParticipants roomId with
    | none => simp
    | some ss =>
      simp only [Option.map_some', Option.getD_some]
      exact not_mem_setDelete ss sid

theorem c4_amended_witness :
    mapGet (handleMessage stC4 "A" (.roomLeave "1")).roomParticipants "1" =
      some [] ∧
    "A" ∉ roomSet (handleMessage stC4 "A" (.roomLeave "1")) "1" := by
  have h := c4_amended_leave_keeps_entry stC4 "A" ⟨"A", "u1", none, 1, ["1"]⟩
    "1" rfl
  refine ⟨?_, h.2⟩
  rw [h.1]
  decide

/-- C8 counterexample: the claim says a failure while cleaning one session
does not prevent reaping of subsequent sessions in the same sweep.  The loop
in `cleanupStaleConnections` has no try/catch, so when cleaning dead `s1`
throws, the exception propagates and aborts the sweep: dead `s2` is still in
the Registry when the sweep dies. -/
theorem c8_counterexample :
    cleanupStaleConnections failsC8 stC8 = .error stC8after ∧
    lookupSession stC8after "s2" = some ⟨"s2", "u2", none, 3, []⟩ ∧
    (3 : Nat) ≠ wsOPEN := ⟨rfl, rfl, by decide⟩

/-- C8 amended: per-session cleanup is NOT isolated — an exception aborts
the rest of the sweep (see the counterexample); what does hold is that a
sweep in which no cleanup throws removes every non-open session from the
Registry. -/
theorem c8_amended_sweep_without_failures (st : CoordState)
    (failsOn : SessionId → Bool)
    (h : ∀ s ∈ st.activeConnections, s.readyState ≠ wsOPEN →
      failsOn s.id = false) :
    ∃ st2, cleanupStaleConnections failsOn st = .ok st2 ∧
      ∀ s ∈ st.activeConnections, s.readyState ≠ wsOPEN →
        lookupSession st2 s.id = none :=
  sweep_ok failsOn st.activeConnections st h

theorem c8_amended_witness :
    (∀ s ∈ stC8w.activeConnections, s.readyState ≠ wsOPEN →
      noFails s.id = false) ∧
    ∃ st2, cleanupStaleConnections noFails stC8w = .ok st2 ∧
      ∀ s ∈ stC8w.activeConnections, s.readyState ≠ wsOPEN →
        lookupSession st2 s.id = none :=
  ⟨by decide, c8_amended_sweep_without_failures stC8w noFails (by decide)⟩

/-- C5: after `handleDisconnect` (= `handleSessionClose`) of a registered
session S, S's id appears in none of the rooms of S's `rooms` set; every such
room entry is transformed by removing S (and deleted entirely when that
empties it — `closeTransform`); the Registry no longer contains S; and a
second call is a safe no-op. -/
theorem c5_disconnect_cleans_all_rooms (st : CoordState) (sid : SessionId)
    (s : Session) (h : lookupSession st sid = some s) :
    (∀ r ∈ s.rooms, sid ∉ roomSet (handleSessionClose st sid) r) ∧
    (∀ r ∈ s.rooms,
      mapGet (handleSessionClose st sid).roomParticipants r =
        closeTransform sid (mapGet st.roomParticipants r)) ∧
    lookupSession (handleSessionClose st sid) sid = none ∧
    handleSessionClose (handleSessionClose st sid) sid =
      handleSessionClose st sid := by
  refine ⟨?_, ?_, lookupSession_close_self st sid, ?_⟩
  · intro r hr
    exact not_mem_roomSet_close h hr
  · intro r hr
    rw [handleSessionClose_of_lookup h]
    show mapGet (s.rooms.foldl (closeRoomStep sid) st.roomParticipants) r = _
    rw [mapGet_foldl_closeRoomStep, if_pos hr]
  · exact handleSessionClose_of_lookup_none (lookupSession_close_self st sid)

theorem c5_witness :
    ("S" ∉ roomSet (handleSessionClose stC5 "S") "1" ∧
      "S" ∉ roomSet (handleSessionClose stC5 "S") "2") ∧
    mapGet (handleSessionClose stC5 "S").roomParticipants "2" = none ∧
    lookupSession (handleSessionClose stC5 "S") "S" = none ∧
    handleSessionClose (handleSessionClose stC5 "S") "S" =
      handleSessionClose stC5 "S" := by
  have h := c5_disconnect_cleans_all_rooms stC5 "S"
    ⟨"S", "u1", none, 3, ["1", "2"]⟩ rfl
  refine ⟨⟨h.1 "1" (by decide), h.1 "2" (by decide)⟩, ?_, h.2.2.1, h.2.2.2⟩
  rw [h.2.1 "2" (by decide)]
  decide

/-- C1: for a room-scoped broadcast (validated envelope, non-global tag,
truthy roomId) targeting a room whose Membership Index entry exists, in a
consistent state: the returned recipient count equals the number of targeted
session ids whose registered session reports an OPEN socket at send time,
and every targeted id whose session does not report OPEN (dead or
unregistered) ends up removed from the Registry and from the room's
membership by the inline cleanup. -/
theorem c1_recipients_are_live_sessions (st : CoordState) (raw : Json)
    (env : Envelope) (rid : StrOrNum) (ids : List SessionId)
    (hcons : Consistent st)
    (hp : parseBroadcastMessage raw = some env)
    (h1 : env.type ≠ "notification:deleted")
    (h2 : env.type ≠ "notification:cleared")
    (hrid : payloadRoomId env.payload = some rid)
    (hf : jsFalsy rid = false)
    (hm : mapGet st.roomParticipants (strCoerce rid) = some ids)
    (hnd : ids.Nodup) :
    (handleBroadcast st raw).result =
      .success (ids.countP (fun sid => isOpenIn st sid)) ∧
    ∀ sid ∈ ids, isOpenIn st sid = false →
      lookupSession (handleBroadcast st raw).state sid = none ∧
      sid ∉ roomSet (handleBroadcast st raw).state (strCoerce rid) := by
  rw [handleBroadcast_room hp h1 h2 hrid hf hm]
  constructor
  · show BroadcastResult.success _ = _
    rw [roomLoop_count (strCoerce rid) ids st 0 [], Nat.zero_add]
  · intro sid hsid hopen
    have hmem : ∀ x ∈ ids, x ∈ roomSet st (strCoerce rid) := by
      intro x hx
      unfold roomSet
      rw [hm]
      simpa using hx
    exact roomLoop_cleanup (strCoerce rid) ids st 0 [] hcons hnd hmem
      sid hsid hopen

theorem c1_witness :
    Consistent stC1 ∧
    (handleBroadcast stC1 rawC1).result = .success 2 ∧
    lookupSession (handleBroadcast stC1 rawC1).state "S2" = none ∧
    "S2" ∉ roomSet (handleBroadcast stC1 rawC1).state "R" := by
  have h := c1_recipients_are_live_sessions stC1 rawC1 envC1 (.str "R")
    ["S1", "S2", "S3"] (by decide) rfl (by decide) (by decide) rfl rfl rfl
    (by decide)
  have h2 := h.2 "S2" (by decide) (by decide)
  refine ⟨by decide, ?_, h2.1, h2.2⟩
  rw [h.1]
  decide

/-- C6: starting from any state satisfying the bidirectional-consistency
invariant (a registered session's id is in a room entry's set iff the
session's `rooms` set holds that roomId), each operation preserves the
invariant: joinRoom and leaveRoom (as dispatched by `handleMessage`),
`handleSessionClose`, and `handleBroadcast` on any JSON body — including the
broadcast loops' inline cleanup of dead and unregistered sessions. -/
theorem c6_operations_preserve_consistency (st : CoordState)
    (h : Consistent st) :
    (∀ (sid : SessionId) (r : RoomId),
      Consistent (handleMessage st sid (.roomJoin r))) ∧
    (∀ (sid : SessionId) (r : RoomId),
      Consistent (handleMessage st sid (.roomLeave r))) ∧
    (∀ sid : SessionId, Consistent (handleSessionClose st sid)) ∧
    (∀ raw : Json, Consistent (handleBroadcast st raw).state) :=
  ⟨fun sid r => consistent_handleMessage st sid (.roomJoin r) h,
   fun sid r => consistent_handleMessage st sid (.roomLeave r) h,
   fun sid => consistent_handleSessionClose st sid h,
   fun raw => consistent_handleBroadcast st raw h⟩

theorem c6_witness :
    Consistent stC6 ∧
    Consistent (handleMessage stC6 "T" (.roomJoin "9")) ∧
    Consistent (handleMessage stC6 "S" (.roomLeave "9")) ∧
    Consistent (handleSessionClose stC6 "S") ∧
    Consistent (handleBroadcast stC6 rawC1).state := by
  have h := c6_operations_preserve_consistency stC6 (by decide)
  exact ⟨by decide, h.1 "T" "9", h.2.1 "S" "9", h.2.2.1 "S", h.2.2.2 rawC1⟩

theorem lookup_handleRoomJoin_self {st : CoordState} {sid : SessionId}
    {s : Session} (hl : lookupSession st sid = some s) (r : RoomId) :
    lookupSession (handleRoomJoin st s r) sid = some (joinUpd r s) := by
  have hsid : s.id = sid := (lookupSession_mem hl).2
  show (updateSession st.activeConnections s.id (joinUpd r)).find?
    (fun t => t.id = sid) = some (joinUpd r s)
  rw [hsid, find?_updateSession st.activeConnections sid (joinUpd r)
    (fun t => rfl) sid]
  rw [show st.activeConnections.find? (fun t => decide (t.id = sid)) = some s
    from hl]
  simp only [Option.map_some']
  rw [if_pos hsid]

theorem lookup_handleRoomLeave_self {st : CoordState} {sid : SessionId}
    {s : Session} (hl : lookupSession st sid = some s) (r : RoomId) :
    lookupSession (handleRoomLeave st s r) sid = some (leaveUpd r s) := by
  have hsid : s.id = sid := (lookupSession_mem hl).2
  show (updateSession st.activeConnections s.id (leaveUpd r)).find?
    (fun t => t.id = sid) = some (leaveUpd r s)
  rw [hsid, find?_updateSession st.activeConnections sid (leaveUpd r)
    (fun t => rfl) sid]
  rw [show st.activeConnections.find? (fun t => decide (t.id = sid)) = some s
    from hl]
  simp only [Option.map_some']
  rw [if_pos hsid]

theorem handleRoomJoin_idem (st : CoordState) (s : Session) (r : RoomId) :
    handleRoomJoin (handleRoomJoin st s r) (joinUpd r s) r =
      handleRoomJoin st s r := by
  have hhas : mapHas (mapUpdate
      (if mapHas st.roomParticipants r then st.roomParticipants
       else st.roomParticipants ++ [(r, [])])
      r (fun ss => setAdd ss s.id)) r = true := by
    show (mapGet (mapUpdate
      (if mapHas st.roomParticipants r then st.roomParticipants
       else st.roomParticipants ++ [(r, [])])
      r (fun ss => setAdd ss s.id)) r).isSome = true
    rw [mapGet_mapUpdate, if_pos rfl, mapGet_ensure]
    rfl
  unfold handleRoomJoin
  dsimp only
  congr 1
  · rw [show (joinUpd r s).id = s.id from rfl,
      updateSession_comp st.activeConnections s.id (joinUpd r) (joinUpd r)
        (fun t => rfl)]
    apply updateSession_congr
    intro t
    show joinUpd r (joinUpd r t) = joinUpd r t
    unfold joinUpd
    simp [setAdd_setAdd]
  · rw [if_pos hhas, mapUpdate_mapUpdate]
    apply mapUpdate_congr
    intro v
    show setAdd (setAdd v s.id) s.id = setAdd v s.id
    exact setAdd_setAdd v s.id

theorem handleRoomLeave_idem (st : CoordState) (s : Session) (r : RoomId) :
    handleRoomLeave (handleRoomLeave st s r) (leaveUpd r s) r =
      handleRoomLeave st s r := by
  unfold handleRoomLeave
  dsimp only
  congr 1
  · rw [show (leaveUpd r s).id = s.id from rfl,
      updateSession_comp st.activeConnections s.id (leaveUpd r) (leaveUpd r)
        (fun t => rfl)]
    apply updateSession_congr
    intro t
    show leaveUpd r (leaveUpd r t) = leaveUpd r t
    unfold leaveUpd
    simp [setDelete_setDelete]
  · rw [mapUpdate_mapUpdate]
    apply mapUpdate_congr
    intro v
    show setDelete (setDelete v s.id) s.id = setDelete v s.id
    exact setDelete_setDelete v s.id

/-- C9: joining the same room twice in a row (through the `handleMessage`
dispatch, as the coordinator does) yields exactly the same state as joining
once, and likewise for leaving — join adds to sets idempotently, leave
deletes idempotently, for every starting state. -/
theorem c9_join_leave_idempotent (st : CoordState) (sid : SessionId)
    (r : RoomId) :
    handleMessage (handleMessage st sid (.roomJoin r)) sid (.roomJoin r) =
      handleMessage st sid (.roomJoin r) ∧
    handleMessage (handleMessage st sid (.roomLeave r)) sid (.roomLeave r) =
      handleMessage st sid (.roomLeave r) := by
  constructor
  · cases hl : lookupSession st sid with
    | none =>
      have h1 : handleMessage st sid (.roomJoin r) = st := by
        unfold handleMessage
        rw [hl]
      rw [h1]
      exact h1
    | some s =>
      have hstep : handleMessage st sid (.roomJoin r) = handleRoomJoin st s r := by
        unfold handleMessage
        rw [hl]
      rw [hstep]
      have hstep₂ : handleMessage (handleRoomJoin st s r) sid (.roomJoin r) =
          handleRoomJoin (handleRoomJoin st s r) (joinUpd r s) r := by
        unfold handleMessage
        rw [lookup_handleRoomJoin_self hl r]
      rw [hstep₂]
      exact handleRoomJoin_idem st s r
  · cases hl : lookupSession st sid with
    | none =>
      have h1 : handleMessage st sid (.roomLeave r) = st := by
        unfold handleMessage
        rw [hl]
      rw [h1]
      exact h1
    | some s =>
      have hstep : handleMessage st sid (.roomLeave r) = handleRoomLeave st s r := by
        unfold handleMessage
        rw [hl]
      rw [hstep]
      have hstep₂ : handleMessage (handleRoomLeave st s r) sid (.roomLeave r) =
          handleRoomLeave (handleRoomLeave st s r) (leaveUpd r s) r := by
        unfold handleMessage
        rw [lookup_handleRoomLeave_self hl r]
      rw [hstep₂]
      exact handleRoomLeave_idem st s r
